import Mathlib

/-!
Shallow embedding of the sunny UDP-multicast transport core
(connection.go, discover.go, log.go): the connection registry,
the packet-dispatch fan-out, and the discovery-session collector.
Maps and channels are modelled explicitly: a Go map is an
association list with distinct keys, a buffered channel is a
buffer list with a capacity, and a non-blocking send appends
when there is room and drops otherwise.
-/

namespace Sunny

/-- Modelled from the spec: the wire packet is opaque to this core
(an already decoded payload; its content never influences dispatch). -/
structure Packet where
  payload : List Nat
deriving DecidableEq, Repr

/-- Modelled from the spec: a Device is an external entity identified by
serial number and reachable at a source IP; construction from an IP and a
password may fail (the constructor is abstracted as a parameter below). -/
structure Device where
  serialNumber : Nat
  deviceIp : String
deriving DecidableEq, Repr

/-! ### Association-list helpers (Go map semantics) -/

theorem lookup_eq_none_iff {β : Type _} (l : List (String × β)) (k : String) :
    l.lookup k = none ↔ k ∉ l.map Prod.fst := by
  induction l with
  | nil => simp
  | cons e rest ih =>
    by_cases h : k = e.1
    · subst h
      simp [List.lookup]
    · simp only [List.lookup, List.map_cons, List.mem_cons]
      have hb : (k == e.1) = false := by
        simpa using h
      simp [hb, ih, h]

theorem lookup_append_of_none {β : Type _} (l l2 : List (String × β)) (k : String)
    (h : l.lookup k = none) : (l ++ l2).lookup k = l2.lookup k := by
  induction l with
  | nil => simp
  | cons e rest ih =>
    by_cases hk : k = e.1
    · subst hk
      simp [List.lookup] at h
    · have hb : (k == e.1) = false := by
        simpa using hk
      simp only [List.lookup, hb] at h
      simpa [List.lookup, hb] using ih h

theorem lookup_singleton {β : Type _} (k : String) (v : β) :
    ([(k, v)] : List (String × β)).lookup k = some v := by
  simp [List.lookup]

/-! ### Discovery-session collector (discover.go, DiscoverDevices lines 58-91) -/

/-- State of one discovery session's collector: `known` is the `knownIps`
dedupe map in insertion order, `published` the devices sent on the results
channel in publication order, `attempts` the IPs for which `c.NewDevice`
was called, in call order, and `logLines` the emitted log output. -/
structure SessState where
  known : List (String × Device)
  published : List Device
  attempts : List String
  logLines : List String
deriving DecidableEq, Repr

def initSession : SessState := ⟨[], [], [], []⟩

/-- One source-IP notification handled by the collector (discover.go 70-86):
under the session lock, if the IP is not in `knownIps` attempt to construct a
device; on success record the IP and publish the device, on failure only log.
`con ip` models `c.NewDevice(ip, password)` at the session's fixed password. -/
def collectorStep (con : String → Option Device) (st : SessState) (ip : String) : SessState :=
  match st.known.lookup ip with
  | some _ => st
  | none =>
    match con ip with
    | none =>
      { st with
          attempts := st.attempts ++ [ip],
          logLines := st.logLines ++ ["discover - skip ip " ++ ip] }
    | some device =>
      { st with
          attempts := st.attempts ++ [ip],
          known := st.known ++ [(ip, device)],
          published := st.published ++ [device],
          logLines := st.logLines ++ ["found device at " ++ ip] }

/-- The collector over the session's stream of source-IP notifications.
Each spawned verification goroutine holds `knownMutex` for its whole body
(discover.go 71-85), so every session interleaving is a fold of
`collectorStep` over some arrival order of the notifications. -/
def collectorRun (con : String → Option Device) (st : SessState) (ips : List String) :
    SessState :=
  ips.foldl (collectorStep con) st

theorem collectorRun_nil (con : String → Option Device) (st : SessState) :
    collectorRun con st [] = st := rfl

theorem collectorRun_cons (con : String → Option Device) (st : SessState)
    (ip : String) (ips : List String) :
    collectorRun con st (ip :: ips) = collectorRun con (collectorStep con st ip) ips := rfl

/-- Keys of the dedupe map only grow along a step. -/
theorem collectorStep_keys_mono (con : String → Option Device) (st : SessState)
    (ip k : String) (h : k ∈ st.known.map Prod.fst) :
    k ∈ (collectorStep con st ip).known.map Prod.fst := by
  unfold collectorStep
  cases hl : st.known.lookup ip with
  | some d => simpa using h
  | none =>
    cases hc : con ip with
    | none => simpa using h
    | some d => simp [h]

theorem collectorRun_keys_mono (con : String → Option Device) (ips : List String) :
    ∀ (st : SessState) (k : String), k ∈ st.known.map Prod.fst →
      k ∈ (collectorRun con st ips).known.map Prod.fst := by
  induction ips with
  | nil => intro st k h; simpa [collectorRun] using h
  | cons ip rest ih =>
    intro st k h
    rw [collectorRun_cons]
    exact ih _ k (collectorStep_keys_mono con st ip k h)

/-- A step on an IP already in the dedupe map does nothing. -/
theorem collectorStep_of_known (con : String → Option Device) (st : SessState)
    (ip : String) (h : ip ∈ st.known.map Prod.fst) :
    collectorStep con st ip = st := by
  unfold collectorStep
  cases hl : st.known.lookup ip with
  | some d => rfl
  | none => exact absurd ((lookup_eq_none_iff st.known ip).mp hl) (by simpa using h)

/-- The dedupe map never acquires a duplicate key. -/
theorem collectorStep_keys_nodup (con : String → Option Device) (st : SessState)
    (ip : String) (h : (st.known.map Prod.fst).Nodup) :
    ((collectorStep con st ip).known.map Prod.fst).Nodup := by
  unfold collectorStep
  cases hl : st.known.lookup ip with
  | some d => simpa using h
  | none =>
    cases hc : con ip with
    | none => simpa using h
    | some d =>
      have hnm : ip ∉ st.known.map Prod.fst := (lookup_eq_none_iff st.known ip).mp hl
      simp [List.nodup_append, h, hnm]

theorem collectorRun_keys_nodup (con : String → Option Device) (ips : List String) :
    ∀ (st : SessState), (st.known.map Prod.fst).Nodup →
      ((collectorRun con st ips).known.map Prod.fst).Nodup := by
  induction ips with
  | nil => intro st h; simpa [collectorRun] using h
  | cons ip rest ih =>
    intro st h
    rw [collectorRun_cons]
    exact ih _ (collectorStep_keys_nodup con st ip h)

/-- Publication order tracks dedupe-map insertion order: the results channel
receives exactly the second components of `knownIps` in insertion order. -/
theorem collectorStep_published_eq (con : String → Option Device) (st : SessState)
    (ip : String) (h : st.published = st.known.map Prod.snd) :
    (collectorStep con st ip).published = (collectorStep con st ip).known.map Prod.snd := by
  unfold collectorStep
  cases hl : st.known.lookup ip with
  | some d => simpa using h
  | none =>
    cases hc : con ip with
    | none => simpa using h
    | some d => simp [h]

theorem collectorRun_published_eq (con : String → Option Device) (ips : List String) :
    ∀ (st : SessState), st.published = st.known.map Prod.snd →
      (collectorRun con st ips).published = (collectorRun con st ips).known.map Prod.snd := by
  induction ips with
  | nil => intro st h; simpa [collectorRun] using h
  | cons ip rest ih =>
    intro st h
    rw [collectorRun_cons]
    exact ih _ (collectorStep_published_eq con st ip h)

/-- Completeness: an IP that is notified and whose construction succeeds
ends up in the dedupe map. -/
theorem collectorRun_keys_complete (con : String → Option Device) (ips : List String) :
    ∀ (st : SessState) (ip : String), ip ∈ ips → (con ip).isSome →
      ip ∈ (collectorRun con st ips).known.map Prod.fst := by
  induction ips with
  | nil => intro st ip h; simp at h
  | cons hd rest ih =>
    intro st ip hmem hcon
    rw [collectorRun_cons]
    rcases List.mem_cons.mp hmem with heq | htl
    · subst heq
      apply collectorRun_keys_mono
      unfold collectorStep
      cases hl : st.known.lookup ip with
      | some d =>
        have : ip ∈ st.known.map Prod.fst := by
          by_contra hn
          rw [(lookup_eq_none_iff st.known ip).mpr hn] at hl
          cases hl
        simpa using this
      | none =>
        cases hc : con ip with
        | none => rw [hc] at hcon; cases hcon
        | some d => simp
    · exact ih _ ip htl hcon

/-- Soundness: a key of the dedupe map after a run was either there before,
or is a notified IP whose construction succeeded. -/
theorem collectorRun_keys_sound (con : String → Option Device) (ips : List String) :
    ∀ (st : SessState) (k : String), k ∈ (collectorRun con st ips).known.map Prod.fst →
      k ∈ st.known.map Prod.fst ∨ (k ∈ ips ∧ (con k).isSome) := by
  induction ips with
  | nil => intro st k h; left; simpa [collectorRun] using h
  | cons hd rest ih =>
    intro st k h
    rw [collectorRun_cons] at h
    rcases ih _ k h with hstep | hrest
    · unfold collectorStep at hstep
      revert hstep
      cases hl : st.known.lookup hd with
      | some d => intro hstep; left; simpa using hstep
      | none =>
        cases hc : con hd with
        | none => intro hstep; left; simpa using hstep
        | some d =>
          intro hstep
          simp only [List.map_append, List.mem_append] at hstep
          rcases hstep with hold | hnew
          · left; exact hold
          · right
            refine ⟨?_, ?_⟩
            · simp at hnew
              simp [hnew]
            · simp at hnew
              rw [hnew, hc]
              rfl
    · right; exact ⟨List.mem_cons_of_mem hd hrest.1, hrest.2⟩

end Sunny

namespace Sunny

/-! ### Attempt counting for the dedupe guarantee -/

theorem collectorStep_attempts_count_ne (con : String → Option Device) (st : SessState)
    (j ip : String) (hne : j ≠ ip) :
    (collectorStep con st j).attempts.count ip = st.attempts.count ip := by
  unfold collectorStep
  cases hl : st.known.lookup j with
  | some d => rfl
  | none =>
    cases hc : con j with
    | none => simp [List.count_append, List.count_singleton, hne]
    | some d => simp [List.count_append, List.count_singleton, hne]

theorem collectorRun_attempts_count_of_known (con : String → Option Device)
    (ips : List String) :
    ∀ (st : SessState) (ip : String), ip ∈ st.known.map Prod.fst →
      (collectorRun con st ips).attempts.count ip = st.attempts.count ip := by
  induction ips with
  | nil => intro st ip h; rfl
  | cons j rest ih =>
    intro st ip h
    rw [collectorRun_cons]
    by_cases hj : j = ip
    · subst hj
      rw [collectorStep_of_known con st j h]
      exact ih st j h
    · rw [ih _ ip (collectorStep_keys_mono con st j ip h)]
      exact collectorStep_attempts_count_ne con st j ip hj

end Sunny

namespace Sunny

/-- C1: For every discovery session, device construction results are
deduplicated by source IP: if two distinct source IPs respond within the
deadline (each possibly sending multiple discovery responses), exactly one
device per distinct IP is recorded in the session's dedupe map and published
on the results channel. -/
theorem discovery_session_dedupes_by_source_ip (con : String → Option Device)
    (ips : List String) (a b : String) (da db : Device)
    (hab : a ≠ b) (ha : a ∈ ips) (hb : b ∈ ips)
    (hrange : ∀ ip ∈ ips, ip = a ∨ ip = b)
    (hca : con a = some da) (hcb : con b = some db) :
    ((collectorRun con initSession ips).known.map Prod.fst).Nodup ∧
    (∀ ip, ip ∈ (collectorRun con initSession ips).known.map Prod.fst ↔ (ip = a ∨ ip = b)) ∧
    (collectorRun con initSession ips).published
      = (collectorRun con initSession ips).known.map Prod.snd ∧
    (collectorRun con initSession ips).published.length = 2 := by
  have hnodup : ((collectorRun con initSession ips).known.map Prod.fst).Nodup :=
    collectorRun_keys_nodup con ips initSession (by simp [initSession])
  have hiff : ∀ ip, ip ∈ (collectorRun con initSession ips).known.map Prod.fst
      ↔ (ip = a ∨ ip = b) := by
    intro ip
    constructor
    · intro h
      rcases collectorRun_keys_sound con ips initSession ip h with h0 | h1
      · simp [initSession] at h0
      · exact hrange ip h1.1
    · intro h
      rcases h with rfl | rfl
      · exact collectorRun_keys_complete con ips initSession ip ha (by rw [hca]; rfl)
      · exact collectorRun_keys_complete con ips initSession ip hb (by rw [hcb]; rfl)
  have hpub : (collectorRun con initSession ips).published
      = (collectorRun con initSession ips).known.map Prod.snd :=
    collectorRun_published_eq con ips initSession (by simp [initSession])
  refine ⟨hnodup, hiff, hpub, ?_⟩
  have hfin : ((collectorRun con initSession ips).known.map Prod.fst).toFinset
      = ({a, b} : Finset String) := by
    ext x
    simp only [List.mem_toFinset, Finset.mem_insert, Finset.mem_singleton]
    exact hiff x
  have hlen : ((collectorRun con initSession ips).known.map Prod.fst).length = 2 := by
    have h1 := List.toFinset_card_of_nodup hnodup
    rw [hfin] at h1
    rw [← h1, Finset.card_pair hab]
  rw [hpub, List.length_map]
  rw [List.length_map] at hlen
  exact hlen

theorem discovery_session_dedupes_by_source_ip_witness :
    ("a" : String) ≠ "b" ∧
    (collectorRun
      (fun ip => if ip = "a" then some (Device.mk 1 "a")
                 else if ip = "b" then some (Device.mk 2 "b") else none)
      initSession ["a", "b", "a"]).published.length = 2 :=
  ⟨by decide,
   (discovery_session_dedupes_by_source_ip
      (fun ip => if ip = "a" then some (Device.mk 1 "a")
                 else if ip = "b" then some (Device.mk 2 "b") else none)
      ["a", "b", "a"] "a" "b" (Device.mk 1 "a") (Device.mk 2 "b")
      (by decide) (by simp) (by simp) (by decide) (by simp) (by simp)).2.2.2⟩

/-- C2 counterexample: with a constructor that fails, a session that is
notified twice about the same IP starts two device-construction attempts for
that IP, so it is false that at most one verification task is ever started
per source IP. -/
theorem verification_attempt_not_unique_counterexample :
    (collectorRun (fun _ => none) initSession ["a", "a"]).attempts = ["a", "a"] := by
  rfl

/-- C2 (amended): the dedupe map is checked under the session lock at the
start of each verification task, and a construction attempt happens only when
the IP is not yet recorded; hence once an IP is in the dedupe map (i.e. after
its verification succeeded) no further construction attempts are ever started
for it. (After failed attempts the same IP may be retried.) -/
theorem verification_attempt_only_when_ip_unknown (con : String → Option Device)
    (st : SessState) (ips : List String) (ip : String)
    (h : ip ∈ st.known.map Prod.fst) :
    collectorStep con st ip = st ∧
    (collectorRun con st ips).attempts.count ip = st.attempts.count ip :=
  ⟨collectorStep_of_known con st ip h,
   collectorRun_attempts_count_of_known con ips st ip h⟩

theorem verification_attempt_only_when_ip_unknown_witness :
    "a" ∈ ((collectorRun (fun _ => some (Device.mk 1 "a")) initSession ["a"]).known.map
      Prod.fst) ∧
    (collectorRun (fun _ => some (Device.mk 1 "a"))
        (collectorRun (fun _ => some (Device.mk 1 "a")) initSession ["a"])
        ["a", "a"]).attempts.count "a"
      = (collectorRun (fun _ => some (Device.mk 1 "a")) initSession ["a"]).attempts.count
          "a" :=
  ⟨by decide,
   (verification_attempt_only_when_ip_unknown (fun _ => some (Device.mk 1 "a"))
      (collectorRun (fun _ => some (Device.mk 1 "a")) initSession ["a"])
      ["a", "a"] "a" (by decide)).2⟩

/-- C10: within a discovery session, a failed device verification leaves the
session state unchanged: the failing IP is not inserted into the dedupe map
and nothing is published for it, and a later notification for the same IP
triggers a fresh verification attempt. -/
theorem failed_verification_leaves_session_unchanged (con : String → Option Device)
    (st : SessState) (ip : String) (hc : con ip = none)
    (h : ip ∉ st.known.map Prod.fst) :
    (collectorStep con st ip).known = st.known ∧
    (collectorStep con st ip).published = st.published ∧
    (collectorRun con st [ip, ip]).attempts = st.attempts ++ [ip, ip] := by
  have hl : st.known.lookup ip = none := (lookup_eq_none_iff st.known ip).mpr h
  have hstep : collectorStep con st ip
      = { st with
            attempts := st.attempts ++ [ip],
            logLines := st.logLines ++ ["discover - skip ip " ++ ip] } := by
    unfold collectorStep
    rw [hl, hc]
  refine ⟨by rw [hstep], by rw [hstep], ?_⟩
  have hrun : collectorRun con st [ip, ip]
      = collectorStep con (collectorStep con st ip) ip := rfl
  rw [hrun, hstep]
  simp [collectorStep, hl, hc]

theorem failed_verification_leaves_session_unchanged_witness :
    ((fun _ => none : String → Option Device) "a" = none) ∧
    (collectorStep (fun _ => none) initSession "a").known = initSession.known ∧
    (collectorStep (fun _ => none) initSession "a").published = initSession.published ∧
    (collectorRun (fun _ => none) initSession ["a", "a"]).attempts
      = initSession.attempts ++ ["a", "a"] :=
  ⟨rfl,
   failed_verification_leaves_session_unchanged (fun _ => none) initSession "a" rfl
     (by decide)⟩

end Sunny

namespace Sunny

/-! ### Connection registry (connection.go, NewConnection lines 48-90) -/

/-- A Connection value; identity (the Go pointer) is the index of the socket
it opened, which is unique per successfully opened socket. -/
structure Conn where
  connId : Nat
deriving DecidableEq, Repr

/-- Outcomes of the external networking calls NewConnection makes, one field
per call site: `net.ResolveUDPAddr` on the fixed listen address,
`net.InterfaceByName` (consulted only for a non-empty interface name),
`net.ListenMulticastUDP` and `SetReadBuffer`. -/
structure NetEnv where
  resolveOk : Bool
  interfaceOk : String → Bool
  listenOk : String → Bool
  setReadBufferOk : String → Bool

/-- The package-level state behind `connectionMutex`: the `connections` map
(in insertion order) plus a counter of sockets opened so far. -/
structure ConnRegistry where
  connections : List (String × Conn)
  socketsOpened : Nat
deriving DecidableEq, Repr

def initRegistry : ConnRegistry := ⟨[], 0⟩

/-- NewConnection (connection.go 48-90): under the global lock, return an
already known Connection unchanged; otherwise resolve the group address,
resolve the interface when the name is non-empty, open the multicast socket
(counted in `socketsOpened`), set the read buffer, and only then register
the fully initialized Connection. -/
def NewConnection (env : NetEnv) (st : ConnRegistry) (inf : String) :
    ConnRegistry × Except String Conn :=
  match st.connections.lookup inf with
  | some c => (st, Except.ok c)
  | none =>
    if env.resolveOk = false then (st, Except.error "resolve address failed")
    else if inf ≠ "" ∧ env.interfaceOk inf = false then
      (st, Except.error "interface lookup failed")
    else if env.listenOk inf = false then
      (st, Except.error "failed to create connection")
    else
      if env.setReadBufferOk inf = false then
        ({ st with socketsOpened := st.socketsOpened + 1 },
         Except.error "set read buffer failed")
      else
        ({ connections := st.connections ++ [(inf, Conn.mk st.socketsOpened)],
           socketsOpened := st.socketsOpened + 1 },
         Except.ok (Conn.mk st.socketsOpened))

/-- C3: obtaining a connection twice for the same interface name returns the
same Connection instance: an existing Connection is returned unchanged with
no new socket opened, and a new socket is opened only on the first
successful call per interface name (a second call then returns that very
Connection with the state unchanged). -/
theorem newConnection_idempotent_per_interface (env : NetEnv) (st : ConnRegistry)
    (inf : String) :
    (∀ c, st.connections.lookup inf = some c → NewConnection env st inf = (st, Except.ok c)) ∧
    (∀ st1 c1, st.connections.lookup inf = none →
      NewConnection env st inf = (st1, Except.ok c1) →
      st1.socketsOpened = st.socketsOpened + 1 ∧
      st1.connections = st.connections ++ [(inf, c1)] ∧
      NewConnection env st1 inf = (st1, Except.ok c1)) := by
  constructor
  · intro c hc
    unfold NewConnection
    rw [hc]
  · intro st1 c1 hnone hok
    unfold NewConnection at hok
    rw [hnone] at hok
    by_cases h1 : env.resolveOk = false
    · rw [if_pos h1] at hok
      cases hok
    rw [if_neg h1] at hok
    by_cases h2 : inf ≠ "" ∧ env.interfaceOk inf = false
    · rw [if_pos h2] at hok
      cases hok
    rw [if_neg h2] at hok
    by_cases h3 : env.listenOk inf = false
    · rw [if_pos h3] at hok
      cases hok
    rw [if_neg h3] at hok
    by_cases h4 : env.setReadBufferOk inf = false
    · rw [if_pos h4] at hok
      cases hok
    rw [if_neg h4] at hok
    have hok2 :
        ((ConnRegistry.mk (st.connections ++ [(inf, Conn.mk st.socketsOpened)])
            (st.socketsOpened + 1)),
          (Except.ok (Conn.mk st.socketsOpened) : Except String Conn))
        = (st1, Except.ok c1) := hok
    have hst : st1 = ConnRegistry.mk (st.connections ++ [(inf, Conn.mk st.socketsOpened)])
        (st.socketsOpened + 1) := (congrArg Prod.fst hok2).symm
    have hce : Conn.mk st.socketsOpened = c1 := Except.ok.inj (congrArg Prod.snd hok2)
    refine ⟨by rw [hst], ?_, ?_⟩
    · rw [hst]
      exact congrArg (fun c => st.connections ++ [(inf, c)]) hce
    · have hlook : st1.connections.lookup inf = some c1 := by
        rw [hst]
        show (st.connections ++ [(inf, Conn.mk st.socketsOpened)]).lookup inf = some c1
        rw [lookup_append_of_none st.connections _ inf hnone, lookup_singleton, hce]
      unfold NewConnection
      rw [hlook]

theorem newConnection_idempotent_per_interface_witness :
    (initRegistry.connections.lookup "eth0" = none) ∧
    (NewConnection (NetEnv.mk true (fun _ => true) (fun _ => true) (fun _ => true))
        initRegistry "eth0"
      = (ConnRegistry.mk [("eth0", Conn.mk 0)] 1, Except.ok (Conn.mk 0))) ∧
    (ConnRegistry.mk [("eth0", Conn.mk 0)] 1).socketsOpened
        = initRegistry.socketsOpened + 1 ∧
    (ConnRegistry.mk [("eth0", Conn.mk 0)] 1).connections
        = initRegistry.connections ++ [("eth0", Conn.mk 0)] ∧
    NewConnection (NetEnv.mk true (fun _ => true) (fun _ => true) (fun _ => true))
        (ConnRegistry.mk [("eth0", Conn.mk 0)] 1) "eth0"
      = (ConnRegistry.mk [("eth0", Conn.mk 0)] 1, Except.ok (Conn.mk 0)) :=
  ⟨rfl, rfl,
   (newConnection_idempotent_per_interface
      (NetEnv.mk true (fun _ => true) (fun _ => true) (fun _ => true))
      initRegistry "eth0").2
     (ConnRegistry.mk [("eth0", Conn.mk 0)] 1) (Conn.mk 0) rfl rfl⟩

end Sunny

namespace Sunny

/-! ### Packet dispatcher (connection.go 122-194) -/

/-- An observable action of one receive-loop dispatch: a non-blocking send
(or a drop on a full buffer) either to a discovery-watcher channel or to a
receiver channel. Channels are named by numeric identity. -/
inductive DispatchEvent where
  | notify (ch : Nat) (ip : String)
  | dropNotify (ch : Nat) (ip : String)
  | deliver (ch : Nat) (ip : String) (p : Packet)
  | dropDeliver (ch : Nat) (ip : String) (p : Packet)
deriving DecidableEq, Repr

def DispatchEvent.isWatcherEv : DispatchEvent → Bool
  | .notify _ _ => true
  | .dropNotify _ _ => true
  | .deliver _ _ _ => false
  | .dropDeliver _ _ _ => false

def DispatchEvent.isReceiverEv : DispatchEvent → Bool
  | .notify _ _ => false
  | .dropNotify _ _ => false
  | .deliver _ _ _ => true
  | .dropDeliver _ _ _ => true

def DispatchEvent.evIp : DispatchEvent → String
  | .notify _ ip => ip
  | .dropNotify _ ip => ip
  | .deliver _ ip _ => ip
  | .dropDeliver _ ip _ => ip

/-- The receiver-channel fan-out loop body (connection.go 126-135): for each
channel registered for the source IP, in order, a non-blocking send of the
packet; a full buffer drops the packet for that receiver only, logging the
drop only when `DetailedPacketLogging` is set. `cap` and `buf` give each
channel's capacity and current buffer. Returns the new buffers, the event
list in loop order, and the emitted log lines. -/
def deliverChannels (verbose : Bool) (srcIp : String) (p : Packet)
    (cap : Nat → Nat) (buf : Nat → List Packet) :
    List Nat → ((Nat → List Packet) × List DispatchEvent × List String)
  | [] => (buf, [], [])
  | ch :: rest =>
    if (buf ch).length < cap ch then
      let r := deliverChannels verbose srcIp p cap
        (fun j => if j = ch then buf ch ++ [p] else buf j) rest
      (r.1, DispatchEvent.deliver ch srcIp p :: r.2.1, r.2.2)
    else
      let r := deliverChannels verbose srcIp p cap buf rest
      (r.1, DispatchEvent.dropDeliver ch srcIp p :: r.2.1,
        (if verbose then
          ["DBG: receiver channel busy -> drop packet from " ++ srcIp]
        else []) ++ r.2.2)

/-- The discovery-watcher fan-out loop body (handleDiscovered, connection.go
166-175): for each registered watcher channel, in order, a non-blocking send
of the source IP, dropping on a full buffer with a log line only when
`DetailedPacketLogging` is set. -/
def notifyChannels (verbose : Bool) (srcIp : String)
    (wcap : Nat → Nat) (wbuf : Nat → List String) :
    List Nat → ((Nat → List String) × List DispatchEvent × List String)
  | [] => (wbuf, [], [])
  | ch :: rest =>
    if (wbuf ch).length < wcap ch then
      let r := notifyChannels verbose srcIp wcap
        (fun j => if j = ch then wbuf ch ++ [srcIp] else wbuf j) rest
      (r.1, DispatchEvent.notify ch srcIp :: r.2.1, r.2.2)
    else
      let r := notifyChannels verbose srcIp wcap wbuf rest
      (r.1, DispatchEvent.dropNotify ch srcIp :: r.2.1,
        (if verbose then
          ["DBG: discover channel busy -> skip notify for " ++ srcIp]
        else []) ++ r.2.2)

/-- handlePackets (connection.go 122-136): under the receiver read lock,
fan the packet out to every channel registered for its source IP; a missing
map entry means no receivers. -/
def handlePackets (verbose : Bool) (reg : List (String × List Nat)) (srcIp : String)
    (p : Packet) (cap : Nat → Nat) (buf : Nat → List Packet) :
    ((Nat → List Packet) × List DispatchEvent × List String) :=
  deliverChannels verbose srcIp p cap buf ((reg.lookup srcIp).getD [])

/-- handleDiscovered (connection.go 162-176): under the discovery read lock,
notify every registered watcher channel of the source IP. -/
def handleDiscovered (verbose : Bool) (chans : List Nat) (srcIp : String)
    (wcap : Nat → Nat) (wbuf : Nat → List String) :
    ((Nat → List String) × List DispatchEvent × List String) :=
  notifyChannels verbose srcIp wcap wbuf chans

/-- Rewrite every entry of the map bearing a key (Go map assignment). -/
def updateEntry (reg : List (String × List Nat)) (ip : String) (v : List Nat) :
    List (String × List Nat) :=
  reg.map (fun e => match e with | (k, w) => if k = ip then (ip, v) else (k, w))

/-- registerReceiver (connection.go 139-144): append the channel to the
entry for the IP, creating the entry if absent (Go append on a nil slice). -/
def registerReceiver (reg : List (String × List Nat)) (ip : String) (ch : Nat) :
    List (String × List Nat) :=
  match reg.lookup ip with
  | none => reg ++ [(ip, [ch])]
  | some receivers => updateEntry reg ip (receivers ++ [ch])

/-- unregisterReceiver (connection.go 147-159): if the IP has no entry,
return; otherwise delete every channel equal (by identity) to the given one
(slices.DeleteFunc). -/
def unregisterReceiver (reg : List (String × List Nat)) (ip : String) (ch : Nat) :
    List (String × List Nat) :=
  match reg.lookup ip with
  | none => reg
  | some receivers => updateEntry reg ip (receivers.filter (fun r => r ≠ ch))

end Sunny

namespace Sunny

/-! ### Fan-out lemmas -/

/-- A channel not in the fan-out list keeps its buffer. -/
theorem deliverChannels_buf_not_mem (verbose : Bool) (srcIp : String) (p : Packet)
    (cap : Nat → Nat) :
    ∀ (ids : List Nat) (buf : Nat → List Packet) (k : Nat), k ∉ ids →
      (deliverChannels verbose srcIp p cap buf ids).1 k = buf k := by
  intro ids
  induction ids with
  | nil => intro buf k h; rfl
  | cons ch rest ih =>
    intro buf k h
    have hk : k ≠ ch := fun he => h (he ▸ List.mem_cons_self ch rest)
    have hr : k ∉ rest := fun hm => h (List.mem_cons_of_mem ch hm)
    by_cases hcap : (buf ch).length < cap ch
    · simp only [deliverChannels, if_pos hcap]
      rw [ih _ k hr]
      simp [hk]
    · simp only [deliverChannels, if_neg hcap]
      exact ih _ k hr

/-- Delivery is pointwise when no channel occurs twice: a channel with room
gets the packet appended, a full channel keeps its buffer. -/
theorem deliverChannels_buf_mem (verbose : Bool) (srcIp : String) (p : Packet)
    (cap : Nat → Nat) :
    ∀ (ids : List Nat) (buf : Nat → List Packet) (k : Nat), ids.Nodup → k ∈ ids →
      (deliverChannels verbose srcIp p cap buf ids).1 k
        = if (buf k).length < cap k then buf k ++ [p] else buf k := by
  intro ids
  induction ids with
  | nil => intro buf k _ h; cases h
  | cons ch rest ih =>
    intro buf k hnd hmem
    have hnr : ch ∉ rest := (List.nodup_cons.mp hnd).1
    have hrest : rest.Nodup := (List.nodup_cons.mp hnd).2
    by_cases hk : k = ch
    · subst hk
      by_cases hcap : (buf k).length < cap k
      · simp [deliverChannels, if_pos hcap,
          deliverChannels_buf_not_mem verbose srcIp p cap rest _ k hnr]
      · simp [deliverChannels, if_neg hcap,
          deliverChannels_buf_not_mem verbose srcIp p cap rest _ k hnr]
    · have hmr : k ∈ rest := by
        rcases List.mem_cons.mp hmem with he | hm
        · exact absurd he hk
        · exact hm
      by_cases hcap : (buf ch).length < cap ch
      · simp only [deliverChannels, if_pos hcap]
        rw [ih _ k hrest hmr]
        simp [hk]
      · simp only [deliverChannels, if_neg hcap]
        exact ih _ k hrest hmr

/-- With verbose tracing off, the fan-out emits no log line. -/
theorem deliverChannels_logs_silent (srcIp : String) (p : Packet) (cap : Nat → Nat) :
    ∀ (ids : List Nat) (buf : Nat → List Packet),
      (deliverChannels false srcIp p cap buf ids).2.2 = [] := by
  intro ids
  induction ids with
  | nil => intro buf; rfl
  | cons ch rest ih =>
    intro buf
    by_cases hcap : (buf ch).length < cap ch
    · simp only [deliverChannels, if_pos hcap]
      exact ih _
    · simp only [deliverChannels, if_neg hcap]
      simpa using ih _

/-- With verbose tracing on, a drop at a full channel is logged. -/
theorem deliverChannels_logs_drop (srcIp : String) (p : Packet) (cap : Nat → Nat) :
    ∀ (ids : List Nat) (buf : Nat → List Packet) (k : Nat), k ∈ ids →
      ¬ (buf k).length < cap k →
      (deliverChannels true srcIp p cap buf ids).2.2 ≠ [] := by
  intro ids
  induction ids with
  | nil => intro buf k h; cases h
  | cons ch rest ih =>
    intro buf k hmem hfull
    by_cases hk : k = ch
    · subst hk
      simp only [deliverChannels, if_neg hfull]
      simp
    · have hmr : k ∈ rest := by
        rcases List.mem_cons.mp hmem with he | hm
        · exact absurd he hk
        · exact hm
      by_cases hcap : (buf ch).length < cap ch
      · simp only [deliverChannels, if_pos hcap]
        have hfull2 :
            ¬ ((fun j => if j = ch then buf ch ++ [p] else buf j) k).length < cap k := by
          simpa [hk] using hfull
        exact ih _ k hmr hfull2
      · simp only [deliverChannels, if_neg hcap]
        simp

/-- C6: a packet dispatched to the receivers registered for its source IP,
where one receiver's buffer is full, is dropped for that receiver only: every
other registered receiver with room still gets the packet, the full receiver's
buffer is left alone, and the drop produces a log line exactly when the
verbose-trace flag is enabled. -/
theorem packet_dispatch_drop_isolated (verbose : Bool) (reg : List (String × List Nat))
    (srcIp : String) (p : Packet) (cap : Nat → Nat) (buf : Nat → List Packet)
    (ids : List Nat) (j : Nat)
    (hreg : reg.lookup srcIp = some ids) (hnd : ids.Nodup) (hj : j ∈ ids)
    (hfull : ¬ (buf j).length < cap j) :
    (∀ i, i ∈ ids → i ≠ j → (buf i).length < cap i →
      (handlePackets verbose reg srcIp p cap buf).1 i = buf i ++ [p]) ∧
    (handlePackets verbose reg srcIp p cap buf).1 j = buf j ∧
    (verbose = false → (handlePackets verbose reg srcIp p cap buf).2.2 = []) ∧
    (verbose = true → (handlePackets verbose reg srcIp p cap buf).2.2 ≠ []) := by
  have htargets : (handlePackets verbose reg srcIp p cap buf)
      = deliverChannels verbose srcIp p cap buf ids := by
    unfold handlePackets
    rw [hreg]
    rfl
  refine ⟨?_, ?_, ?_, ?_⟩
  · intro i hi hij hroom
    rw [htargets, deliverChannels_buf_mem verbose srcIp p cap ids buf i hnd hi,
      if_pos hroom]
  · rw [htargets, deliverChannels_buf_mem verbose srcIp p cap ids buf j hnd hj,
      if_neg hfull]
  · intro hv
    subst hv
    rw [htargets]
    exact deliverChannels_logs_silent srcIp p cap ids buf
  · intro hv
    subst hv
    rw [htargets]
    exact deliverChannels_logs_drop srcIp p cap ids buf j hj hfull

theorem packet_dispatch_drop_isolated_witness :
    ¬ (((fun _ => []) : Nat → List Packet) 0).length
        < ((fun i => if i = 0 then 0 else 1) : Nat → Nat) 0 ∧
    (handlePackets true [("1.2.3.4", [0, 1])] "1.2.3.4" (Packet.mk [7])
        (fun i => if i = 0 then 0 else 1) (fun _ => [])).1 1
      = ((fun _ => []) : Nat → List Packet) 1 ++ [Packet.mk [7]] :=
  ⟨by decide,
   (packet_dispatch_drop_isolated true [("1.2.3.4", [0, 1])] "1.2.3.4" (Packet.mk [7])
      (fun i => if i = 0 then 0 else 1) (fun _ => []) [0, 1] 0
      (by rfl) (by decide) (by decide) (by decide)).1 1 (by decide) (by decide)
     (by decide)⟩

end Sunny

namespace Sunny

theorem updateEntry_cons_eq (a : String) (b v : List Nat)
    (rest : List (String × List Nat)) :
    updateEntry ((a, b) :: rest) a v = (a, v) :: updateEntry rest a v := by
  simp [updateEntry]

theorem updateEntry_cons_ne (a ip : String) (b v : List Nat)
    (rest : List (String × List Nat)) (h : a ≠ ip) :
    updateEntry ((a, b) :: rest) ip v = (a, b) :: updateEntry rest ip v := by
  simp [updateEntry, h]

theorem lookup_updateEntry (reg : List (String × List Nat)) (ip : String) (v : List Nat) :
    (updateEntry reg ip v).lookup ip = (reg.lookup ip).map (fun _ => v) := by
  induction reg with
  | nil => rfl
  | cons e rest ih =>
    obtain ⟨a, b⟩ := e
    by_cases h : a = ip
    · subst h
      rw [updateEntry_cons_eq]
      simp [List.lookup]
    · have hb : (ip == a) = false := beq_false_of_ne (Ne.symm h)
      rw [updateEntry_cons_ne a ip b v rest h]
      simp [List.lookup, hb, ih]

theorem updateEntry_of_not_mem (reg : List (String × List Nat)) (ip : String)
    (v : List Nat) (h : ip ∉ reg.map Prod.fst) : updateEntry reg ip v = reg := by
  induction reg with
  | nil => rfl
  | cons e rest ih =>
    obtain ⟨a, b⟩ := e
    simp only [List.map_cons, List.mem_cons] at h
    push_neg at h
    rw [updateEntry_cons_ne a ip b v rest (Ne.symm h.1), ih h.2]

theorem updateEntry_self (reg : List (String × List Nat)) (ip : String) (v : List Nat)
    (hnd : (reg.map Prod.fst).Nodup) (h : reg.lookup ip = some v) :
    updateEntry reg ip v = reg := by
  induction reg with
  | nil => rfl
  | cons e rest ih =>
    obtain ⟨a, b⟩ := e
    have hnd2 : (rest.map Prod.fst).Nodup := (List.nodup_cons.mp (by simpa using hnd)).2
    have hnm : a ∉ rest.map Prod.fst := (List.nodup_cons.mp (by simpa using hnd)).1
    by_cases he : a = ip
    · subst he
      have hv : b = v := by
        simpa [List.lookup] using h
      subst hv
      rw [updateEntry_cons_eq, updateEntry_of_not_mem rest a b hnm]
    · have hb : (ip == a) = false := beq_false_of_ne (Ne.symm he)
      have hr : rest.lookup ip = some v := by
        simpa [List.lookup, hb] using h
      rw [updateEntry_cons_ne a ip b v rest he, ih hnd2 hr]

/-- C7: after unregisterReceiver(ip, ch) the channel ch is gone from the
registry entry for ip and a packet dispatched from that IP is never delivered
to ch; unregistering an IP/channel pair that is not present leaves the
registry unchanged. -/
theorem unregisterReceiver_removes_channel (reg : List (String × List Nat))
    (ip : String) (ch : Nat) (hnd : (reg.map Prod.fst).Nodup) :
    ch ∉ ((unregisterReceiver reg ip ch).lookup ip).getD [] ∧
    (∀ (verbose : Bool) (p : Packet) (cap : Nat → Nat) (buf : Nat → List Packet),
      (handlePackets verbose (unregisterReceiver reg ip ch) ip p cap buf).1 ch = buf ch) ∧
    (ch ∉ (reg.lookup ip).getD [] → unregisterReceiver reg ip ch = reg) := by
  have hentry : ch ∉ ((unregisterReceiver reg ip ch).lookup ip).getD [] := by
    unfold unregisterReceiver
    cases hl : reg.lookup ip with
    | none =>
      rw [hl]
      simp
    | some receivers =>
      rw [lookup_updateEntry reg ip _, hl]
      simp
  refine ⟨hentry, ?_, ?_⟩
  · intro verbose p cap buf
    unfold handlePackets
    exact deliverChannels_buf_not_mem verbose ip p cap _ buf ch hentry
  · intro hch
    unfold unregisterReceiver
    cases hl : reg.lookup ip with
    | none => rfl
    | some receivers =>
      rw [hl] at hch
      simp only [Option.getD_some] at hch
      have hfil : receivers.filter (fun r => r ≠ ch) = receivers := by
        rw [List.filter_eq_self]
        intro a ha
        simp
        exact fun he => hch (he ▸ ha)
      show updateEntry reg ip (receivers.filter (fun r => r ≠ ch)) = reg
      rw [hfil]
      exact updateEntry_self reg ip receivers hnd hl

theorem unregisterReceiver_removes_channel_witness :
    (([("1.2.3.4", [5])] : List (String × List Nat)).map Prod.fst).Nodup ∧
    (7 ∉ ((unregisterReceiver [("1.2.3.4", [5])] "1.2.3.4" 7).lookup "1.2.3.4").getD []) ∧
    (7 ∉ (([("1.2.3.4", [5])] : List (String × List Nat)).lookup "1.2.3.4").getD [] →
      unregisterReceiver [("1.2.3.4", [5])] "1.2.3.4" 7 = [("1.2.3.4", [5])]) :=
  ⟨by decide,
   (unregisterReceiver_removes_channel [("1.2.3.4", [5])] "1.2.3.4" 7 (by decide)).1,
   (unregisterReceiver_removes_channel [("1.2.3.4", [5])] "1.2.3.4" 7 (by decide)).2.2⟩

end Sunny

namespace Sunny

/-! ### Receive loop (listenLoop, connection.go 93-119) -/

/-- The per-Connection state the receive loop dispatches against: the
receiver registry and the watcher list, with the buffers and capacities of
the channels they name. -/
structure ConnState where
  receiverChannels : List (String × List Nat)
  discoverChannels : List Nat
  receiverCap : Nat → Nat
  receiverBuf : Nat → List Packet
  watcherCap : Nat → Nat
  watcherBuf : Nat → List String

/-- One socket read: either a read error or a datagram with the source
address observed on it. -/
inductive RecvResult where
  | readErr (msg : String)
  | datagram (srcIp : String) (payload : List Nat)

/-- One iteration of listenLoop (connection.go 96-118): a read error only
logs (when verbose) and retries; a datagram that fails to decode is logged
and discarded with no dispatch; on successful decode the discovery watchers
are notified of the source IP first and then the packet is dispatched to the
receivers registered for that source IP, both keyed by the address observed
on the datagram. Returns the new state, the dispatch events in program
order, and the log lines. `decode` models `proto.Packet.Read`. -/
def listenStep (verbose : Bool) (decode : List Nat → Except String Packet)
    (st : ConnState) (r : RecvResult) : ConnState × List DispatchEvent × List String :=
  match r with
  | RecvResult.readErr msg =>
    (st, [], if verbose then ["DBG: UDP read failed: " ++ msg] else [])
  | RecvResult.datagram srcIp payload =>
    match decode payload with
    | Except.error e => (st, [], ["recv " ++ srcIp ++ " invalid: " ++ e])
    | Except.ok pack =>
      let d := handleDiscovered verbose st.discoverChannels srcIp st.watcherCap st.watcherBuf
      let h := handlePackets verbose st.receiverChannels srcIp pack st.receiverCap
        st.receiverBuf
      ({ st with watcherBuf := d.1, receiverBuf := h.1 },
       d.2.1 ++ h.2.1,
       ("recv " ++ srcIp) :: (d.2.2 ++ h.2.2))

theorem notifyChannels_events (verbose : Bool) (srcIp : String) (wcap : Nat → Nat) :
    ∀ (chans : List Nat) (wbuf : Nat → List String),
      (notifyChannels verbose srcIp wcap wbuf chans).2.1.length = chans.length ∧
      ∀ ev ∈ (notifyChannels verbose srcIp wcap wbuf chans).2.1,
        ev.isWatcherEv = true ∧ ev.evIp = srcIp := by
  intro chans
  induction chans with
  | nil =>
    intro wbuf
    exact ⟨rfl, by intro ev h; cases h⟩
  | cons ch rest ih =>
    intro wbuf
    by_cases hcap : (wbuf ch).length < wcap ch
    · simp only [notifyChannels, if_pos hcap]
      refine ⟨by simp [(ih _).1], ?_⟩
      intro ev hev
      simp only [List.mem_cons] at hev
      rcases hev with he | hm
      · subst he
        exact ⟨rfl, rfl⟩
      · exact (ih _).2 ev hm
    · simp only [notifyChannels, if_neg hcap]
      refine ⟨by simp [(ih _).1], ?_⟩
      intro ev hev
      simp only [List.mem_cons] at hev
      rcases hev with he | hm
      · subst he
        exact ⟨rfl, rfl⟩
      · exact (ih _).2 ev hm

theorem deliverChannels_events (verbose : Bool) (srcIp : String) (p : Packet)
    (cap : Nat → Nat) :
    ∀ (ids : List Nat) (buf : Nat → List Packet),
      (deliverChannels verbose srcIp p cap buf ids).2.1.length = ids.length ∧
      ∀ ev ∈ (deliverChannels verbose srcIp p cap buf ids).2.1,
        ev.isReceiverEv = true ∧ ev.evIp = srcIp := by
  intro ids
  induction ids with
  | nil =>
    intro buf
    exact ⟨rfl, by intro ev h; cases h⟩
  | cons ch rest ih =>
    intro buf
    by_cases hcap : (buf ch).length < cap ch
    · simp only [deliverChannels, if_pos hcap]
      refine ⟨by simp [(ih _).1], ?_⟩
      intro ev hev
      simp only [List.mem_cons] at hev
      rcases hev with he | hm
      · subst he
        exact ⟨rfl, rfl⟩
      · exact (ih _).2 ev hm
    · simp only [deliverChannels, if_neg hcap]
      refine ⟨by simp [(ih _).1], ?_⟩
      intro ev hev
      simp only [List.mem_cons] at hev
      rcases hev with he | hm
      · subst he
        exact ⟨rfl, rfl⟩
      · exact (ih _).2 ev hm

theorem isWatcherEv_eq_false_of_receiver (ev : DispatchEvent)
    (h : ev.isReceiverEv = true) : ev.isWatcherEv = false := by
  cases ev <;> simp_all [DispatchEvent.isWatcherEv, DispatchEvent.isReceiverEv]

theorem isReceiverEv_eq_false_of_watcher (ev : DispatchEvent)
    (h : ev.isWatcherEv = true) : ev.isReceiverEv = false := by
  cases ev <;> simp_all [DispatchEvent.isWatcherEv, DispatchEvent.isReceiverEv]

end Sunny

namespace Sunny


/-- C8: for every datagram processed by the receive loop, a decode failure is
logged and discarded with no dispatch; on success all discovery watchers are
notified of the datagram's source IP first (the watcher events form the prefix
of the dispatch trace, one per registered watcher), and then the packet is
dispatched to the receivers registered for that source IP (one receiver event
per registered channel), every event keyed by the observed source address. -/
theorem listen_step_order (verbose : Bool) (decode : List Nat → Except String Packet)
    (st : ConnState) (srcIp : String) (payload : List Nat) :
    (∀ e, decode payload = Except.error e →
      listenStep verbose decode st (RecvResult.datagram srcIp payload)
        = (st, [], ["recv " ++ srcIp ++ " invalid: " ++ e])) ∧
    (∀ p, decode payload = Except.ok p →
      (∀ ev ∈ (listenStep verbose decode st (RecvResult.datagram srcIp payload)).2.1,
        ev.evIp = srcIp) ∧
      ((listenStep verbose decode st (RecvResult.datagram srcIp payload)).2.1.filter
          DispatchEvent.isWatcherEv)
        ++ ((listenStep verbose decode st (RecvResult.datagram srcIp payload)).2.1.filter
          DispatchEvent.isReceiverEv)
        = (listenStep verbose decode st (RecvResult.datagram srcIp payload)).2.1 ∧
      ((listenStep verbose decode st (RecvResult.datagram srcIp payload)).2.1.filter
          DispatchEvent.isWatcherEv).length = st.discoverChannels.length ∧
      ((listenStep verbose decode st (RecvResult.datagram srcIp payload)).2.1.filter
          DispatchEvent.isReceiverEv).length
        = ((st.receiverChannels.lookup srcIp).getD []).length) := by
  constructor
  · intro e he
    simp [listenStep, he]
  · intro p hp
    have htr : (listenStep verbose decode st (RecvResult.datagram srcIp payload)).2.1
        = (handleDiscovered verbose st.discoverChannels srcIp st.watcherCap
            st.watcherBuf).2.1
          ++ (handlePackets verbose st.receiverChannels srcIp p st.receiverCap
            st.receiverBuf).2.1 := by
      simp [listenStep, hp]
    have hw := notifyChannels_events verbose srcIp st.watcherCap st.discoverChannels
      st.watcherBuf
    have hr := deliverChannels_events verbose srcIp p st.receiverCap
      ((st.receiverChannels.lookup srcIp).getD []) st.receiverBuf
    have hfww : (handleDiscovered verbose st.discoverChannels srcIp st.watcherCap
        st.watcherBuf).2.1.filter DispatchEvent.isWatcherEv
        = (handleDiscovered verbose st.discoverChannels srcIp st.watcherCap
            st.watcherBuf).2.1 :=
      List.filter_eq_self.mpr (fun ev hev => (hw.2 ev hev).1)
    have hfwr : (handlePackets verbose st.receiverChannels srcIp p st.receiverCap
        st.receiverBuf).2.1.filter DispatchEvent.isWatcherEv = [] := by
      rw [List.filter_eq_nil_iff]
      intro ev hev
      rw [isWatcherEv_eq_false_of_receiver ev (hr.2 ev hev).1]
      exact Bool.false_ne_true
    have hfrw : (handleDiscovered verbose st.discoverChannels srcIp st.watcherCap
        st.watcherBuf).2.1.filter DispatchEvent.isReceiverEv = [] := by
      rw [List.filter_eq_nil_iff]
      intro ev hev
      rw [isReceiverEv_eq_false_of_watcher ev (hw.2 ev hev).1]
      exact Bool.false_ne_true
    have hfrr : (handlePackets verbose st.receiverChannels srcIp p st.receiverCap
        st.receiverBuf).2.1.filter DispatchEvent.isReceiverEv
        = (handlePackets verbose st.receiverChannels srcIp p st.receiverCap
            st.receiverBuf).2.1 :=
      List.filter_eq_self.mpr (fun ev hev => (hr.2 ev hev).1)
    refine ⟨?_, ?_, ?_, ?_⟩
    · intro ev hev
      rw [htr] at hev
      rcases List.mem_append.mp hev with hm | hm
      · exact (hw.2 ev hm).2
      · exact (hr.2 ev hm).2
    · rw [htr, List.filter_append, List.filter_append, hfww, hfwr, hfrw, hfrr]
      simp
    · rw [htr, List.filter_append, hfww, hfwr]
      simpa using hw.1
    · rw [htr, List.filter_append, hfrw, hfrr]
      simpa using hr.1

end Sunny

namespace Sunny

theorem listen_step_order_witness :
    ((fun payload => if payload = ([] : List Nat) then Except.error "empty"
        else Except.ok (Packet.mk payload)) ([] : List Nat) = Except.error "empty") ∧
    (listenStep true
      (fun payload => if payload = ([] : List Nat) then Except.error "empty"
        else Except.ok (Packet.mk payload))
      (ConnState.mk [("9.9.9.9", [0])] [1] (fun _ => 1) (fun _ => []) (fun _ => 1)
        (fun _ => []))
      (RecvResult.datagram "9.9.9.9" [])
      = (ConnState.mk [("9.9.9.9", [0])] [1] (fun _ => 1) (fun _ => []) (fun _ => 1)
          (fun _ => []),
         [], ["recv " ++ "9.9.9.9" ++ " invalid: " ++ "empty"])) ∧
    ((fun payload => if payload = ([] : List Nat) then Except.error "empty"
        else Except.ok (Packet.mk payload)) [5] = Except.ok (Packet.mk [5])) ∧
    ((listenStep true
      (fun payload => if payload = ([] : List Nat) then Except.error "empty"
        else Except.ok (Packet.mk payload))
      (ConnState.mk [("9.9.9.9", [0])] [1] (fun _ => 1) (fun _ => []) (fun _ => 1)
        (fun _ => []))
      (RecvResult.datagram "9.9.9.9" [5])).2.1.filter
        DispatchEvent.isWatcherEv).length
      = (ConnState.mk [("9.9.9.9", [0])] [1] (fun _ => 1) (fun _ => [])
          (fun _ => 1) (fun _ => []) : ConnState).discoverChannels.length :=
  ⟨rfl,
   (listen_step_order true
      (fun payload => if payload = ([] : List Nat) then Except.error "empty"
        else Except.ok (Packet.mk payload))
      (ConnState.mk [("9.9.9.9", [0])] [1] (fun _ => 1) (fun _ => []) (fun _ => 1)
        (fun _ => []))
      "9.9.9.9" []).1 "empty" rfl,
   rfl,
   ((listen_step_order true
      (fun payload => if payload = ([] : List Nat) then Except.error "empty"
        else Except.ok (Packet.mk payload))
      (ConnState.mk [("9.9.9.9", [0])] [1] (fun _ => 1) (fun _ => []) (fun _ => 1)
        (fun _ => []))
      "9.9.9.9" [5]).2 (Packet.mk [5]) rfl).2.2.1⟩

end Sunny

namespace Sunny

/-! ### Discovery entry points (discover.go 26-48) -/

/-- The devices the channel-based DiscoverDevices form publishes on its
results channel, in publication order, when run over the stream `ips` of
source-IP notifications consumed before the deadline fires. -/
def DiscoverDevicesPublished (con : String → Option Device) (ips : List String) :
    List Device :=
  (collectorRun con initSession ips).published

/-- SimpleDiscoverDevices (discover.go 26-48): runs DiscoverDevices under a
3-second timeout while a draining goroutine appends each device received on
the results channel to deviceList in channel order, and returns that list
once the session completes. -/
def SimpleDiscoverDevices (con : String → Option Device) (ips : List String) :
    List Device :=
  (DiscoverDevicesPublished con ips).foldl (fun acc d => acc ++ [d]) []

/-- The fixed deadline SimpleDiscoverDevices applies (discover.go 41,
`context.WithTimeout(..., time.Second*3)`). -/
def simpleDiscoverTimeoutSeconds : Nat := 3

/-- Follows the spec's words (§4.4): the result contracted for
discoverDevicesSimple is the channel-based form run with the same password
and deadline, with its results channel drained to completion. -/
def specSimpleDiscoverDevices (con : String → Option Device) (ips : List String) :
    List Device :=
  DiscoverDevicesPublished con ips

theorem foldl_append_singleton {α : Type _} :
    ∀ (l acc : List α), l.foldl (fun a d => a ++ [d]) acc = acc ++ l := by
  intro l
  induction l with
  | nil => intro acc; simp
  | cons x xs ih => intro acc; simp [List.foldl_cons, ih]

/-- C9: SimpleDiscoverDevices applies a fixed 3-second deadline and returns
exactly the list of devices the channel-based DiscoverDevices form publishes
on its results channel for the same session, drained to completion, in
publication order. -/
theorem simpleDiscover_refines_channel_form (con : String → Option Device)
    (ips : List String) :
    SimpleDiscoverDevices con ips = specSimpleDiscoverDevices con ips ∧
    simpleDiscoverTimeoutSeconds = 3 := by
  refine ⟨?_, rfl⟩
  unfold SimpleDiscoverDevices specSimpleDiscoverDevices
  rw [foldl_append_singleton]
  simp

/-! ### Lock and registry usage of the discovery session (discover.go 51-109,
connection.go 122-194) -/

/-- The synchronization objects of the Connection and of a discovery
session, one constructor per mutex in the source. -/
inductive LockId where
  | connectionMutex
  | receiverMutex
  | discoverMutex
  | sessionKnownMutex
deriving DecidableEq, Repr

/-- The lock DiscoverDevices acquires for the whole session
(discover.go 52: `c.discoverMutex.Lock()`, released by defer at return). -/
def DiscoverDevicesSessionLock : LockId := LockId.discoverMutex

/-- The lock handleDiscovered read-acquires for watcher fan-out
(connection.go 163: `c.discoverMutex.RLock()`). -/
def handleDiscoveredLock : LockId := LockId.discoverMutex

/-- The lock handlePackets read-acquires for receiver fan-out
(connection.go 123: `c.receiverMutex.RLock()`). -/
def handlePacketsLock : LockId := LockId.receiverMutex

/-- The lock registerDiscoverer and unregisterDiscoverer write-acquire
(connection.go 180, 188). -/
def discovererRegistryLock : LockId := LockId.discoverMutex

/-- C4 (code evaluated at the failing configuration): the lock
DiscoverDevices holds for the whole session is the very discovery-watcher
registry lock that handleDiscovered read-acquires, not a lock distinct from
the registry locks; hence a running session does block the receive loop's
dispatch path (listenLoop calls handleDiscovered before handlePackets). -/
theorem discovery_session_lock_equals_watcher_registry_lock :
    DiscoverDevicesSessionLock = handleDiscoveredLock ∧
    DiscoverDevicesSessionLock = discovererRegistryLock ∧
    DiscoverDevicesSessionLock ≠ handlePacketsLock := by
  refine ⟨rfl, rfl, ?_⟩
  intro h
  cases h

/-- The discovery-watcher registry operations DiscoverDevices performs, read
off its body (discover.go 51-109): it consumes from the undeclared field
`c.discoveredDevices` and never calls registerDiscoverer or
unregisterDiscoverer. -/
inductive WatcherRegOp where
  | registerOp
  | unregisterOp
deriving DecidableEq, Repr

def DiscoverDevicesWatcherRegOps : List WatcherRegOp := []

/-- C5 (code evaluated at the failing input): a discovery session registers
no discovery-watcher channel in the Connection's watcher registry and
unregisters none, contradicting the claimed register-at-start /
unregister-at-deadline protocol. -/
theorem discovery_session_registers_no_watcher_channel :
    DiscoverDevicesWatcherRegOps.count WatcherRegOp.registerOp = 0 ∧
    DiscoverDevicesWatcherRegOps.count WatcherRegOp.unregisterOp = 0 :=
  ⟨rfl, rfl⟩

end Sunny
